import Mathlib

/-!
Shallow embedding of the gym-session booking engine from
`src/lib/api/mockData.ts`.

Conventions of the embedding:
* A calendar date is a natural number counting days since the Unix epoch
  (1970-01-01, a Thursday), so the JavaScript `Date.getDay` day-of-week of
  day `d` is `(d + 4) % 7` (0 = Sunday).
* A timestamp ("now", `createdAt`) is a natural number counting minutes
  since the epoch; `startOfDay` of a timestamp is its day `now / 1440`.
  A slot at calendar date `d` and hour `h` starts at minute `d * 1440 + h * 60`.
* The `date-fns` comparisons `isSameDay / isAfter / isBefore` applied to
  parsed `yyyy-MM-dd` dates become plain `=`, `<`, `>` on day numbers.
* The module-level mutable arrays `mockSlots`, `mockUsers`, `mockBookings`,
  `mockAuditLogs` become the fields of an explicit `GymState` threaded
  through the operations; `array[index] = value` after `findIndex` becomes
  `updateFirst`, and `push` becomes appending at the end of the list.
* `availableSpots` is an `Int` (a JavaScript number that the code only
  ever decrements under an explicit positivity guard).
-/

namespace Gym

structure BookingSlot where
  id : String
  date : Nat
  hour : Nat
  availableSpots : Int
  totalSpots : Int
  bookedBy : List String
  deriving DecidableEq, Repr

structure Booking where
  id : String
  userId : String
  slotId : String
  createdAt : Nat
  deriving DecidableEq, Repr

inductive Gender where
  | male | female | other
  deriving DecidableEq, Repr

structure GymUser where
  id : String
  email : String
  name : String
  gender : Gender
  department : String
  bookingHistory : List String
  deriving DecidableEq, Repr

inductive AuditAction where
  | login | logout | booking_created | booking_cancelled | admin_action
  deriving DecidableEq, Repr

structure AuditLog where
  id : String
  userId : String
  action : AuditAction
  details : String
  timestamp : Nat
  deriving DecidableEq, Repr

/-- The module-level mutable state of `mockData.ts`: the four shared arrays. -/
structure GymState where
  slots : List BookingSlot
  users : List GymUser
  bookings : List Booking
  auditLogs : List AuditLog
  deriving DecidableEq, Repr

/-- Day number of a minute timestamp; `startOfDay` keeps only this. -/
def dayOf (now : Nat) : Nat := now / 1440

/-- JavaScript `Date.getDay` for a day number (epoch day 0 is a Thursday). -/
def getDay (d : Nat) : Nat := (d + 4) % 7

/-- Occupancy of a slot, `totalSpots - availableSpots` as in the spec. -/
def occupancy (s : BookingSlot) : Int := s.totalSpots - s.availableSpots

/-- Replace the first element satisfying `p` (the `findIndex` / assign-at-index
pattern the source uses on `mockSlots` and `mockUsers`). -/
def updateFirst (p : α → Bool) (f : α → α) : List α → List α
  | [] => []
  | x :: xs => if p x then f x :: xs else x :: updateFirst p f xs

/-- Slot id string `slot-<date>-<hour>` (the embedding prints the day number
where the source prints the formatted date; only injectivity per (date, hour)
matters). -/
def slotIdStr (d h : Nat) : String :=
  "slot-" ++ toString d ++ "-" ++ toString h

/-- Hours 8..20 with the lunch hour 12 skipped, as in the generation loop. -/
def genHours : List Nat :=
  ((List.range 13).map (· + 8)).filter (fun h => decide (h ≠ 12))

/-- One generated slot for a given date and hour, with `r` random pre-booked
spots (`Math.floor(Math.random() * 30)` in the source). -/
def genSlot (date hour r : Nat) : BookingSlot :=
  { id := slotIdStr date hour
    date := date
    hour := hour
    availableSpots := 50 - (r : Int)
    totalSpots := 50
    bookedBy := (List.range r).map (fun i => "user-" ++ toString (i + 1)) }

/-- Translation of `generateMockSlots`: slots for the next 30 days after
`today`, hours 8..20 except 12; the random booked-spot counts become the
parameter `rand day hour`. -/
def generateMockSlots (today : Nat) (rand : Nat → Nat → Nat) : List BookingSlot :=
  ((List.range 30).map (· + 1)).flatMap (fun day =>
    genHours.map (fun hour => genSlot (today + day) hour (rand day hour)))

/-- Translation of `getAvailableSlots`: slots whose date is within
`[dateFrom, dateTo]` inclusive and which still have available spots. -/
def getAvailableSlots (slots : List BookingSlot) (dateFrom dateTo : Nat) :
    List BookingSlot :=
  slots.filter (fun slot =>
    decide (dateFrom ≤ slot.date ∧ slot.date ≤ dateTo ∧ 0 < slot.availableSpots))

/-- Translation of `getUserBookings`: the slots referenced by the bookings in
the user's booking history. -/
def getUserBookings (st : GymState) (userId : String) : List BookingSlot :=
  let userBookingIds :=
    ((st.users.find? (fun user => decide (user.id = userId))).map
      (fun user => user.bookingHistory)).getD []
  let userBookings :=
    st.bookings.filter (fun booking => userBookingIds.contains booking.id)
  st.slots.filter (fun slot =>
    userBookings.any (fun booking => decide (booking.slotId = slot.id)))

/-- Result record of `canBookSlot`: `{ canBook, reason? }`. -/
structure BookRules where
  canBook : Bool
  reason : Option String
  deriving DecidableEq, Repr

def leadMsg : String := "Bookings must be made at least 24 hours in advance"
def dailyMsg : String := "Maximum 2 sessions per day allowed"
def invalidSlotMsg : String := "Invalid slot"
def adjMsg : String := "Cannot book consecutive sessions"
def weeklyMsg : String := "Maximum 3 sessions per week allowed"

/-- The user's already-booked slots on a given date
(`userSlots.filter(slot => slot.date === date)` in `canBookSlot`). -/
def slotsOnSameDay (st : GymState) (userId : String) (date : Nat) :
    List BookingSlot :=
  (getUserBookings st userId).filter (fun slot => decide (slot.date = date))

/-- The adjacency test of `canBookSlot`: some same-day booked slot has an hour
differing from the requested slot's hour by exactly 1. -/
def hasAdjacentBooking (st : GymState) (userId : String) (date : Nat)
    (requestedSlot : BookingSlot) : Bool :=
  (slotsOnSameDay st userId date).any (fun slot =>
    decide (((slot.hour : Int) - (requestedSlot.hour : Int)).natAbs = 1))

/-- Sunday-start week window containing the day of `now`
(`startOfWeek = addDays(today, -today.getDay())`, `endOfWeek = startOfWeek + 6`;
`Int` because the JavaScript subtraction may go below the epoch). -/
def weekWindow (now : Nat) : Int × Int :=
  let today := dayOf now
  let startW : Int := (today : Int) - (getDay today : Int)
  (startW, startW + 6)

/-- Number of the user's booked slots falling in the Sunday-start week that
contains the day of `now` (the weekly-cap count of `canBookSlot`). -/
def weeklyCount (st : GymState) (userId : String) (now : Nat) : Nat :=
  ((getUserBookings st userId).filter (fun slot =>
    decide ((weekWindow now).1 ≤ (slot.date : Int) ∧
      (slot.date : Int) ≤ (weekWindow now).2))).length

/-- Translation of `canBookSlot`, checking in source order: lead time, daily
cap, slot existence, adjacency, weekly cap. -/
def canBookSlot (st : GymState) (userId slotId : String) (date : Nat)
    (now : Nat) : BookRules :=
  let today := dayOf now
  if date < today + 1 then
    { canBook := false, reason := some leadMsg }
  else
    if 2 ≤ (slotsOnSameDay st userId date).length then
      { canBook := false, reason := some dailyMsg }
    else
      match st.slots.find? (fun slot => decide (slot.id = slotId)) with
      | none => { canBook := false, reason := some invalidSlotMsg }
      | some requestedSlot =>
        if hasAdjacentBooking st userId date requestedSlot then
          { canBook := false, reason := some adjMsg }
        else
          if 3 ≤ weeklyCount st userId now then
            { canBook := false, reason := some weeklyMsg }
          else
            { canBook := true, reason := none }

/-- Result record of `bookSlot`: `{ success, message }`. -/
structure BookResult where
  success : Bool
  message : String
  deriving DecidableEq, Repr

def slotNotFoundMsg : String := "Slot not found"
def noSpotsMsg : String := "No available spots in this slot"
def successMsg : String := "Booking successful"

/-- Translation of `bookSlot`. The source derives the booking id from
`Date.now()` and the timestamps from `new Date()`; both become the `now`
parameter. Returns the result together with the new state. -/
def bookSlot (st : GymState) (userId slotId : String) (now : Nat) :
    BookResult × GymState :=
  match st.slots.find? (fun slot => decide (slot.id = slotId)) with
  | none => ({ success := false, message := slotNotFoundMsg }, st)
  | some slot =>
    if slot.availableSpots ≤ 0 then
      ({ success := false, message := noSpotsMsg }, st)
    else
      let bookingRules := canBookSlot st userId slotId slot.date now
      if bookingRules.canBook = false then
        ({ success := false,
           message := bookingRules.reason.getD "Cannot book this slot" }, st)
      else
        let booking : Booking :=
          { id := "booking-" ++ toString now, userId := userId,
            slotId := slotId, createdAt := now }
        let newSlots :=
          updateFirst (fun s => decide (s.id = slotId))
            (fun s => { s with availableSpots := s.availableSpots - 1,
                               bookedBy := s.bookedBy ++ [userId] }) st.slots
        let newUsers :=
          updateFirst (fun user => decide (user.id = userId))
            (fun user =>
              { user with bookingHistory := user.bookingHistory ++ [booking.id] })
            st.users
        let newLog : AuditLog :=
          { id := "log-" ++ toString (st.auditLogs.length + 1)
            userId := userId
            action := AuditAction.booking_created
            details := "Booking created for slot " ++ slotId
            timestamp := now }
        ({ success := true, message := successMsg },
         { slots := newSlots
           users := newUsers
           bookings := st.bookings ++ [booking]
           auditLogs := st.auditLogs ++ [newLog] })

inductive CancelOutcome where
  | ok | notFound | notBooked | slotMissing
  deriving DecidableEq, Repr

/-- Modelled from the spec: the Booking Orchestrator operation
`cancel(bookingId, now)` is absent from the source (the only cancel code in
the repository, `handleCancelBooking` in the My-Bookings page, merely filters
the page's local component state and notes that a real app would call an
API). Per §4.4 of the spec: fail with `NotFound` if the booking does not
exist; otherwise perform `Slot Store.release` (fail with `NotBooked` if the
user is absent from the slot's booker set, else decrement occupancy and
remove the user) and `Booking Ledger.removeBooking` as one atomic unit, and
append an `AuditEvent(booking_cancelled)`. A failure leaves the state
untouched. -/
def cancelBooking (st : GymState) (bookingId : String) (now : Nat) :
    CancelOutcome × GymState :=
  match st.bookings.find? (fun b => decide (b.id = bookingId)) with
  | none => (CancelOutcome.notFound, st)
  | some booking =>
    match st.slots.find? (fun s => decide (s.id = booking.slotId)) with
    | none => (CancelOutcome.slotMissing, st)
    | some slot =>
      if booking.userId ∈ slot.bookedBy then
        let newSlots :=
          updateFirst (fun s => decide (s.id = booking.slotId))
            (fun s => { s with availableSpots := s.availableSpots + 1,
                               bookedBy := s.bookedBy.erase booking.userId })
            st.slots
        let newLog : AuditLog :=
          { id := "log-" ++ toString (st.auditLogs.length + 1)
            userId := booking.userId
            action := AuditAction.booking_cancelled
            details := "Booking cancelled for slot " ++ booking.slotId
            timestamp := now }
        (CancelOutcome.ok,
         { slots := newSlots
           users := st.users
           bookings := st.bookings.eraseP (fun b => decide (b.id = bookingId))
           auditLogs := st.auditLogs ++ [newLog] })
      else
        (CancelOutcome.notBooked, st)

/-- States reachable from an initially generated store (slots produced by
`generateMockSlots`; the generated users, bookings and audit logs do not
touch the slot store, so any value of those fields is admitted, which only
widens the set of initial states) by any sequence of successful or failed
`bookSlot` calls. -/
inductive Reachable (today : Nat) (rand : Nat → Nat → Nat) : GymState → Prop
  | init (users : List GymUser) (bookings : List Booking)
      (logs : List AuditLog) :
      Reachable today rand
        { slots := generateMockSlots today rand, users := users,
          bookings := bookings, auditLogs := logs }
  | step (st : GymState) (userId slotId : String) (now : Nat) :
      Reachable today rand st →
      Reachable today rand (bookSlot st userId slotId now).2

/-- The per-slot invariant of the spec: occupancy equals the number of
bookers and lies between 0 and capacity. -/
def SlotInv (s : BookingSlot) : Prop :=
  occupancy s = s.bookedBy.length ∧ 0 ≤ occupancy s ∧ occupancy s ≤ s.totalSpots

/-- The lead-time rule of `canBookSlot` as a predicate: the slot's date is at
least the day after the day of `now`. -/
def LeadOk (date now : Nat) : Prop := dayOf now + 1 ≤ date

/-- The daily-cap rule of `canBookSlot` as a predicate. -/
def DailyOk (st : GymState) (userId : String) (date : Nat) : Prop :=
  (slotsOnSameDay st userId date).length < 2

/-- The weekly-cap rule of `canBookSlot` as a predicate. -/
def WeeklyOk (st : GymState) (userId : String) (now : Nat) : Prop :=
  weeklyCount st userId now < 3

/-- Written from the spec sentence of claim C4, for comparison with the code:
the number of the user's booked slots whose date lies in the Sunday-start
7-day week containing the target date `d` (rather than the week containing
the evaluation day). -/
def targetWeekCountSpec (st : GymState) (userId : String) (d : Nat) : Nat :=
  ((getUserBookings st userId).filter (fun slot =>
    decide ((d : Int) - (getDay d : Int) ≤ (slot.date : Int) ∧
      (slot.date : Int) ≤ (d : Int) - (getDay d : Int) + 6))).length

/-- Strict (date, hour) order on slots. -/
def slotOrd (a b : BookingSlot) : Prop :=
  a.date < b.date ∨ (a.date = b.date ∧ a.hour < b.hour)

instance : DecidableRel slotOrd := fun a b => by
  unfold slotOrd
  infer_instance

/-! Concrete scenario states used by counterexamples and witnesses.
Day numbers: day 3 is 1970-01-04, a Sunday, so the Sunday-start week of an
evaluation day 3 is the window of days 3..9. -/

/-- An open slot with the given id, date and hour. -/
def openSlot (idv : String) (d h : Nat) : BookingSlot :=
  { id := idv, date := d, hour := h, availableSpots := 5, totalSpots := 50,
    bookedBy := [] }

/-- A user of id `u1` whose history is the given booking ids. -/
def mkUser1 (hist : List String) : GymUser :=
  { id := "u1", email := "e", name := "n", gender := Gender.male,
    department := "d", bookingHistory := hist }

/-- A booking record. -/
def mkBooking (idv uid sid : String) : Booking :=
  { id := idv, userId := uid, slotId := sid, createdAt := 0 }

/-- Scenario for claim C2: user `u1` is already in the booker set of slot
`s1` (with a matching ledger entry) and books the same slot again. -/
def stRebook : GymState :=
  { slots := [{ id := "s1", date := 10, hour := 9, availableSpots := 1,
                totalSpots := 2, bookedBy := ["u1"] }]
    users := [mkUser1 ["b1"]]
    bookings := [mkBooking "b1" "u1" "s1"]
    auditLogs := [] }

/-- Scenario for claim C3: user `u1` already has three bookings (days 6, 7, 8)
inside the Sunday week 3..9 of the evaluation day, and requests a slot id
that does not exist. -/
def stWeekFullNoSlot : GymState :=
  { slots := [openSlot "s6" 6 8, openSlot "s7" 7 8, openSlot "s8" 8 8]
    users := [mkUser1 ["b1", "b2", "b3"]]
    bookings := [mkBooking "b1" "u1" "s6", mkBooking "b2" "u1" "s7",
                 mkBooking "b3" "u1" "s8"]
    auditLogs := [] }

/-- Scenario for the amended claim C4: as `stWeekFullNoSlot` but the target
slot (day 5, inside the same Sunday week) exists. -/
def stWeekFull : GymState :=
  { slots := [openSlot "s5" 5 8, openSlot "s6" 6 8, openSlot "s7" 7 8,
              openSlot "s8" 8 8]
    users := [mkUser1 ["b1", "b2", "b3"]]
    bookings := [mkBooking "b1" "u1" "s6", mkBooking "b2" "u1" "s7",
                 mkBooking "b3" "u1" "s8"]
    auditLogs := [] }

/-- Scenario for claim C4: evaluation day 3 (Sunday week 3..9); the target
slot is on day 12, and the user's three bookings (days 11, 13, 14) all lie
in the Sunday week 10..16 containing the target date but outside the week
of the evaluation day. -/
def stNextWeekFull : GymState :=
  { slots := [openSlot "s11" 11 8, openSlot "s12" 12 9, openSlot "s13" 13 8,
              openSlot "s14" 14 8]
    users := [mkUser1 ["b1", "b2", "b3"]]
    bookings := [mkBooking "b1" "u1" "s11", mkBooking "b2" "u1" "s13",
                 mkBooking "b3" "u1" "s14"]
    auditLogs := [] }

/-- Scenario for claims C5 and C10: a single open slot on day 5 at hour 10
(starting at minute 7800) and no users at all. -/
def stLeadTime : GymState :=
  { slots := [openSlot "sA" 5 10], users := [], bookings := [], auditLogs := [] }

/-- Scenario for claim C6: user `u1` has bookings at hours 9 and 11 on
day 20. -/
def stNineEleven : GymState :=
  { slots := [openSlot "s9" 20 9, openSlot "s11" 20 11]
    users := [mkUser1 ["b1", "b2"]]
    bookings := [mkBooking "b1" "u1" "s9", mkBooking "b2" "u1" "s11"]
    auditLogs := [] }

/-- Scenario for the witness of claim C6: user `u1` has one booking at hour 9
on day 20 and requests the adjacent hour 10 (daily cap not yet reached). -/
def stNineOnly : GymState :=
  { slots := [openSlot "s9" 20 9, openSlot "t10" 20 10]
    users := [mkUser1 ["b1"]]
    bookings := [mkBooking "b1" "u1" "s9"]
    auditLogs := [] }

/-- Scenario for claim C8: a slot inside the queried date range with zero
available spots. -/
def fullSlot : BookingSlot :=
  { id := "f", date := 5, hour := 9, availableSpots := 0, totalSpots := 50,
    bookedBy := ["u1"] }

/-- A store holding only `fullSlot`. -/
def stFull : GymState :=
  { slots := [fullSlot], users := [], bookings := [], auditLogs := [] }

/-- A small store sorted by (date, hour), for the order-preservation witness
of claim C8. -/
def sortedSlots : List BookingSlot :=
  [openSlot "a" 1 8, fullSlot, openSlot "b" 5 10, openSlot "c" 7 8]

/-! Helper lemmas about `updateFirst`, `find?`, `eraseP` and
`getUserBookings`. -/

theorem updateFirst_of_forall_not {α : Type} {p : α → Bool} {f : α → α}
    {l : List α} (h : ∀ x ∈ l, ¬ p x = true) : updateFirst p f l = l := by
  induction l with
  | nil => rfl
  | cons x xs ih =>
      have hx : ¬ p x = true := h x (List.mem_cons_self x xs)
      simp only [updateFirst, if_neg hx]
      rw [ih (fun y hy => h y (List.mem_cons_of_mem x hy))]

theorem mem_updateFirst_of_find? {α : Type} {p : α → Bool} {f : α → α}
    {l : List α} {x y : α} (hfind : l.find? p = some x)
    (hy : y ∈ updateFirst p f l) : y ∈ l ∨ y = f x := by
  induction l with
  | nil => simp [updateFirst] at hy
  | cons a l ih =>
      by_cases ha : p a = true
      · rw [List.find?_cons_of_pos _ ha, Option.some_inj] at hfind
        subst hfind
        rw [updateFirst, if_pos ha] at hy
        rcases List.mem_cons.mp hy with h | h
        · exact Or.inr h
        · exact Or.inl (List.mem_cons_of_mem _ h)
      · rw [List.find?_cons_of_neg _ ha] at hfind
        rw [updateFirst, if_neg ha] at hy
        rcases List.mem_cons.mp hy with h | h
        · exact Or.inl (h ▸ List.mem_cons_self _ _)
        · rcases ih hfind h with h' | h'
          · exact Or.inl (List.mem_cons_of_mem _ h')
          · exact Or.inr h'

theorem find?_updateFirst {α : Type} {p : α → Bool} {f : α → α}
    {l : List α} {x : α} (hp : ∀ y, p y = true → p (f y) = true)
    (hfind : l.find? p = some x) :
    (updateFirst p f l).find? p = some (f x) := by
  induction l with
  | nil => simp at hfind
  | cons a l ih =>
      by_cases ha : p a = true
      · rw [List.find?_cons_of_pos _ ha, Option.some_inj] at hfind
        subst hfind
        rw [updateFirst, if_pos ha]
        exact List.find?_cons_of_pos _ (hp a ha)
      · rw [List.find?_cons_of_neg _ ha] at hfind
        rw [updateFirst, if_neg ha, List.find?_cons_of_neg _ ha]
        exact ih hfind

theorem find?_eraseP_of_countP_le_one {α : Type} {p : α → Bool} {l : List α}
    (h : l.countP p ≤ 1) : (l.eraseP p).find? p = none := by
  induction l with
  | nil => simp
  | cons a l ih =>
      by_cases ha : p a = true
      · rw [List.eraseP_cons_of_pos ha, List.find?_eq_none]
        intro x hx hpx
        have hz : l.countP p = 0 := by
          rw [List.countP_cons, if_pos ha] at h
          omega
        exact (List.countP_eq_zero.mp hz) x hx hpx
      · rw [List.eraseP_cons_of_neg ha, List.find?_cons_of_neg _ ha]
        apply ih
        rwa [List.countP_cons, if_neg ha, Nat.add_zero] at h

theorem getUserBookings_of_user_absent {st : GymState} {uid : String}
    (h : st.users.find? (fun u => decide (u.id = uid)) = none) :
    getUserBookings st uid = [] := by
  simp [getUserBookings, h]

theorem slotInv_genSlot {d h r : Nat} (hr : r ≤ 50) : SlotInv (genSlot d h r) := by
  unfold SlotInv genSlot occupancy
  simp only [List.length_map, List.length_range]
  refine ⟨by omega, by omega, by omega⟩

theorem mem_generateMockSlots {today : Nat} {rand : Nat → Nat → Nat}
    {s : BookingSlot} (hs : s ∈ generateMockSlots today rand) :
    ∃ day hour, s = genSlot (today + day) hour (rand day hour) := by
  simp only [generateMockSlots, List.mem_flatMap, List.mem_map] at hs
  obtain ⟨day, -, hour, -, rfl⟩ := hs
  exact ⟨day, hour, rfl⟩

/-- C1: for every slot of the store, at every state reachable from the
initially generated store by successful or failed `bookSlot` calls, the
occupancy `totalSpots - availableSpots` equals the number of entries of the
slot's `bookedBy` collection and lies between 0 and `totalSpots`. -/
theorem slot_occupancy_invariant (today : Nat) (rand : Nat → Nat → Nat)
    (hr : ∀ d h, rand d h < 30) {st : GymState}
    (hreach : Reachable today rand st) :
    ∀ s ∈ st.slots, SlotInv s := by
  induction hreach with
  | init users bookings logs =>
      intro s hs
      obtain ⟨day, hour, rfl⟩ := mem_generateMockSlots hs
      exact slotInv_genSlot (by have := hr day hour; omega)
  | step st userId slotId now hst ih =>
      intro s hs
      unfold bookSlot at hs
      split at hs
      next => exact ih s hs
      next slot hfind =>
        split at hs
        next => exact ih s hs
        next hcap =>
          simp only at hs
          split at hs
          next => exact ih s hs
          next hrules =>
            simp only at hs
            rcases mem_updateFirst_of_find? hfind hs with h | rfl
            · exact ih s h
            · have hinv := ih slot (List.mem_of_find?_eq_some hfind)
              unfold SlotInv occupancy at hinv ⊢
              simp only [List.length_append, List.length_cons, List.length_nil]
              push_cast at hinv ⊢
              omega

/-- Closed witness for C1: the invariant at the first slot of a concrete
generated store. -/
theorem slot_occupancy_invariant_witness : SlotInv (genSlot 1 8 3) :=
  slot_occupancy_invariant 0 (fun _ _ => 3)
    (fun _ _ => by show (3 : Nat) < 30; decide)
    (Reachable.init [] [] []) (genSlot 1 8 3) (by decide)

/-- C2 counterexample: in `stRebook` the id `u1` is already a member of the
booker set of slot `s1`, yet `bookSlot` succeeds instead of failing, and `u1`
then appears twice in the slot's booker set. -/
theorem rebooking_not_rejected_counterexample :
    (∃ s ∈ stRebook.slots, s.id = "s1" ∧ "u1" ∈ s.bookedBy) ∧
    (bookSlot stRebook "u1" "s1" 12960).1.success = true ∧
    (bookSlot stRebook "u1" "s1" 12960).2.slots =
      [{ id := "s1", date := 10, hour := 9, availableSpots := 0, totalSpots := 2,
         bookedBy := ["u1", "u1"] }] := by
  decide

/-- C2 amended: `bookSlot` performs no booker-set membership check. If the
requested slot is found, has spots left and the booking rules pass, the call
succeeds even when the user's id is already a member of the slot's booker
set, and appends the id again, so the user then occurs at least twice. -/
theorem rebooking_succeeds_and_duplicates (st : GymState)
    (userId slotId : String) (now : Nat) (slot : BookingSlot)
    (hfind : st.slots.find? (fun s => decide (s.id = slotId)) = some slot)
    (hmem : userId ∈ slot.bookedBy)
    (hcap : 0 < slot.availableSpots)
    (hrules : (canBookSlot st userId slotId slot.date now).canBook = true) :
    (bookSlot st userId slotId now).1.success = true ∧
    (bookSlot st userId slotId now).2.slots.find?
        (fun s => decide (s.id = slotId)) =
      some { slot with availableSpots := slot.availableSpots - 1,
                       bookedBy := slot.bookedBy ++ [userId] } ∧
    2 ≤ (slot.bookedBy ++ [userId]).count userId := by
  have hcap' : ¬ slot.availableSpots ≤ 0 := by omega
  have hrules' : ¬ (canBookSlot st userId slotId slot.date now).canBook = false := by
    simp [hrules]
  have hslots : (bookSlot st userId slotId now).2.slots =
      updateFirst (fun s => decide (s.id = slotId))
        (fun s => { s with availableSpots := s.availableSpots - 1,
                           bookedBy := s.bookedBy ++ [userId] }) st.slots := by
    unfold bookSlot
    rw [hfind]
    simp only [if_neg hcap', if_neg hrules']
  have hsucc : (bookSlot st userId slotId now).1.success = true := by
    unfold bookSlot
    rw [hfind]
    simp only [if_neg hcap', if_neg hrules']
  have hp : ∀ y : BookingSlot,
      (fun s : BookingSlot => decide (s.id = slotId)) y = true →
      (fun s : BookingSlot => decide (s.id = slotId))
        ({ y with availableSpots := y.availableSpots - 1,
                  bookedBy := y.bookedBy ++ [userId] }) = true :=
    fun y hy => hy
  have hfind' := find?_updateFirst hp hfind
  refine ⟨hsucc, by rw [hslots]; exact hfind', ?_⟩
  have h1 : 1 ≤ slot.bookedBy.count userId := List.one_le_count_iff.mpr hmem
  rw [List.count_append, List.count_singleton_self]
  omega

/-- Closed witness for the amended C2 at the concrete rebooking scenario. -/
theorem rebooking_succeeds_and_duplicates_witness :
    (bookSlot stRebook "u1" "s1" 12960).1.success = true ∧
    (bookSlot stRebook "u1" "s1" 12960).2.slots.find?
        (fun s => decide (s.id = "s1")) =
      some { id := "s1", date := 10, hour := 9, availableSpots := 0,
             totalSpots := 2, bookedBy := ["u1", "u1"] } ∧
    2 ≤ (["u1", "u1"] : List String).count "u1" :=
  rebooking_succeeds_and_duplicates stRebook "u1" "s1" 12960
    { id := "s1", date := 10, hour := 9, availableSpots := 1, totalSpots := 2,
      bookedBy := ["u1"] }
    (by decide) (by decide) (by decide) (by decide)

/-- C3 counterexample: in `stWeekFullNoSlot` at evaluation minute 4320
(day 3) the weekly cap — an earlier rule in the claimed order — is violated
(the user already has 3 bookings in the week), yet `canBookSlot` reports the
slot-existence violation `Invalid slot`, because the existence check runs
before the weekly cap. -/
theorem rule_order_counterexample :
    canBookSlot stWeekFullNoSlot "u1" "missing" 5 4320 =
      { canBook := false, reason := some invalidSlotMsg } ∧
    3 ≤ weeklyCount stWeekFullNoSlot "u1" 4320 := by
  decide

/-- C3 amended: `canBookSlot` evaluates its rules in the fixed source order
lead time, daily cap, slot existence, non-adjacency, weekly cap, and reports
the first violated rule in that order; slot capacity is not checked by
`canBookSlot` at all — `bookSlot` checks it before invoking the rules, so a
capacity failure is reported even when every rule (including lead time) also
fails. -/
theorem canBookSlot_first_failure (st : GymState) (userId slotId : String)
    (date now : Nat) :
    ((canBookSlot st userId slotId date now).reason = some leadMsg ↔
      ¬ LeadOk date now) ∧
    ((canBookSlot st userId slotId date now).reason = some dailyMsg ↔
      LeadOk date now ∧ ¬ DailyOk st userId date) ∧
    ((canBookSlot st userId slotId date now).reason = some invalidSlotMsg ↔
      LeadOk date now ∧ DailyOk st userId date ∧
      st.slots.find? (fun sl => decide (sl.id = slotId)) = none) ∧
    ((canBookSlot st userId slotId date now).reason = some adjMsg ↔
      LeadOk date now ∧ DailyOk st userId date ∧
      (∃ s, st.slots.find? (fun sl => decide (sl.id = slotId)) = some s ∧
        hasAdjacentBooking st userId date s = true)) ∧
    ((canBookSlot st userId slotId date now).reason = some weeklyMsg ↔
      LeadOk date now ∧ DailyOk st userId date ∧
      (∃ s, st.slots.find? (fun sl => decide (sl.id = slotId)) = some s ∧
        hasAdjacentBooking st userId date s = false) ∧
      ¬ WeeklyOk st userId now) ∧
    (canBookSlot st userId slotId date now =
        { canBook := true, reason := none } ↔
      LeadOk date now ∧ DailyOk st userId date ∧
      (∃ s, st.slots.find? (fun sl => decide (sl.id = slotId)) = some s ∧
        hasAdjacentBooking st userId date s = false) ∧
      WeeklyOk st userId now) ∧
    (∀ slot, st.slots.find? (fun sl => decide (sl.id = slotId)) = some slot →
      slot.availableSpots ≤ 0 →
      (bookSlot st userId slotId now).1 =
        { success := false, message := noSpotsMsg }) := by
  have hbook : ∀ slot,
      st.slots.find? (fun sl => decide (sl.id = slotId)) = some slot →
      slot.availableSpots ≤ 0 →
      (bookSlot st userId slotId now).1 =
        { success := false, message := noSpotsMsg } := by
    intro slot hf hcap
    unfold bookSlot
    rw [hf]
    simp only [if_pos hcap]
  refine ⟨?_, ?_, ?_, ?_, ?_, ?_, hbook⟩ <;> clear hbook
  all_goals by_cases hlead : date < dayOf now + 1
  all_goals try {
    have hres : canBookSlot st userId slotId date now =
        { canBook := false, reason := some leadMsg } := by
      unfold canBookSlot
      rw [if_pos hlead]
    have hnl : ¬ LeadOk date now := by unfold LeadOk; omega
    simp [hres, leadMsg, dailyMsg, invalidSlotMsg, adjMsg, weeklyMsg, hnl] }
  all_goals have hl : LeadOk date now := by unfold LeadOk; omega
  all_goals by_cases hdaily : 2 ≤ (slotsOnSameDay st userId date).length
  all_goals try {
    have hres : canBookSlot st userId slotId date now =
        { canBook := false, reason := some dailyMsg } := by
      unfold canBookSlot
      rw [if_neg hlead, if_pos hdaily]
    have hnd : ¬ DailyOk st userId date := by unfold DailyOk; omega
    simp [hres, leadMsg, dailyMsg, invalidSlotMsg, adjMsg, weeklyMsg, hl, hnd] }
  all_goals have hd : DailyOk st userId date := by unfold DailyOk; omega
  all_goals cases hfind : st.slots.find? (fun sl => decide (sl.id = slotId)) with
    | none =>
        have hres : canBookSlot st userId slotId date now =
            { canBook := false, reason := some invalidSlotMsg } := by
          unfold canBookSlot
          simp only [if_neg hlead, if_neg hdaily, hfind]
        simp [hres, leadMsg, dailyMsg, invalidSlotMsg, adjMsg, weeklyMsg,
          hl, hd, hfind]
    | some s =>
        by_cases hadj : hasAdjacentBooking st userId date s = true
        · have hres : canBookSlot st userId slotId date now =
              { canBook := false, reason := some adjMsg } := by
            unfold canBookSlot
            simp only [if_neg hlead, if_neg hdaily, hfind, if_pos hadj]
          simp [hres, leadMsg, dailyMsg, invalidSlotMsg, adjMsg, weeklyMsg,
            hl, hd, hfind, hadj]
        · have hadj' : hasAdjacentBooking st userId date s = false :=
            Bool.eq_false_iff.mpr hadj
          by_cases hweek : 3 ≤ weeklyCount st userId now
          · have hres : canBookSlot st userId slotId date now =
                { canBook := false, reason := some weeklyMsg } := by
              unfold canBookSlot
              simp only [if_neg hlead, if_neg hdaily, hfind, if_neg hadj,
                if_pos hweek]
            have hnw : ¬ WeeklyOk st userId now := by unfold WeeklyOk; omega
            simp [hres, leadMsg, dailyMsg, invalidSlotMsg, adjMsg, weeklyMsg,
              hl, hd, hfind, hadj', hnw]
          · have hres : canBookSlot st userId slotId date now =
                { canBook := true, reason := none } := by
              unfold canBookSlot
              simp only [if_neg hlead, if_neg hdaily, hfind, if_neg hadj,
                if_neg hweek]
            have hw : WeeklyOk st userId now := by unfold WeeklyOk; omega
            simp [hres, leadMsg, dailyMsg, invalidSlotMsg, adjMsg, weeklyMsg,
              hl, hd, hfind, hadj', hw]

/-- Closed witness for the amended C3: in `stFull` (one full slot inside the
store) a booking attempt whose lead time is also violated is reported as a
capacity failure, because `bookSlot` checks capacity before the rules. -/
theorem canBookSlot_first_failure_witness :
    (bookSlot stFull "u1" "f" 999999).1 =
      { success := false, message := noSpotsMsg } :=
  (canBookSlot_first_failure stFull "u1" "f" 5 999999).2.2.2.2.2.2 fullSlot
    (by decide) (by decide)

/-- C4 counterexample: at evaluation minute 4320 (day 3, a Sunday) the user
of `stNextWeekFull` already has 3 bookings (days 11, 13, 14) inside the
Sunday-start week 10..16 containing the target date 12, so the claim demands
a weekly-cap rejection — but `canBookSlot` approves the booking, because it
counts bookings in the week 3..9 containing the evaluation day instead. -/
theorem weekly_cap_window_counterexample :
    targetWeekCountSpec stNextWeekFull "u1" 12 = 3 ∧
    canBookSlot stNextWeekFull "u1" "s12" 12 4320 =
      { canBook := true, reason := none } := by
  decide

/-- C4 amended: the weekly-cap rule counts the user's booked slots whose date
lies in the Sunday-start week containing the day of `referenceNow` — not the
week containing the target slot's date — and, once the earlier rules pass,
rejects with the weekly-cap violation exactly when that count is 3 or more. -/
theorem weekly_cap_now_anchored (st : GymState) (userId slotId : String)
    (date now : Nat) (s : BookingSlot)
    (hlead : LeadOk date now) (hdaily : DailyOk st userId date)
    (hfind : st.slots.find? (fun sl => decide (sl.id = slotId)) = some s)
    (hadj : hasAdjacentBooking st userId date s = false) :
    (canBookSlot st userId slotId date now).reason = some weeklyMsg ↔
      3 ≤ weeklyCount st userId now := by
  have hlead' : ¬ date < dayOf now + 1 := by unfold LeadOk at hlead; omega
  have hdaily' : ¬ 2 ≤ (slotsOnSameDay st userId date).length := by
    unfold DailyOk at hdaily; omega
  have hadj' : ¬ hasAdjacentBooking st userId date s = true := by simp [hadj]
  by_cases hweek : 3 ≤ weeklyCount st userId now
  · have hres : canBookSlot st userId slotId date now =
        { canBook := false, reason := some weeklyMsg } := by
      unfold canBookSlot
      simp only [if_neg hlead', if_neg hdaily', hfind, if_neg hadj',
        if_pos hweek]
    simp [hres, hweek]
  · have hres : canBookSlot st userId slotId date now =
        { canBook := true, reason := none } := by
      unfold canBookSlot
      simp only [if_neg hlead', if_neg hdaily', hfind, if_neg hadj',
        if_neg hweek]
    simp [hres, hweek]

/-- Closed witness for the amended C4: in `stWeekFull` (three bookings in the
Sunday week 3..9 of the evaluation day) the fourth request of that week is
rejected with the weekly-cap message. -/
theorem weekly_cap_now_anchored_witness :
    (canBookSlot stWeekFull "u1" "s5" 5 4320).reason = some weeklyMsg :=
  (weekly_cap_now_anchored stWeekFull "u1" "s5" 5 4320 (openSlot "s5" 5 8)
    (by unfold LeadOk dayOf; omega) (by unfold DailyOk; decide)
    (by decide) (by decide)).mpr (by decide)

/-- A booking evaluation whose lead-time rule passes can never report the
lead-time violation, whatever the other rules decide. -/
theorem reason_ne_lead_of_leadOk {st : GymState} {userId slotId : String}
    {date now : Nat} (hl : ¬ date < dayOf now + 1) :
    (canBookSlot st userId slotId date now).reason ≠ some leadMsg := by
  unfold canBookSlot
  rw [if_neg hl]
  split
  next => simp [dailyMsg, leadMsg]
  next =>
    split
    next => simp [invalidSlotMsg, leadMsg]
    next s =>
      split
      next => simp [adjMsg, leadMsg]
      next =>
        split
        next => simp [weeklyMsg, leadMsg]
        next => simp

/-- C5 counterexample: in `stLeadTime` the slot starts at minute 7800 (day 5,
hour 10); the booking attempt at minute 6361 is exactly 23 h 59 min before
that start, yet it passes every rule — including lead time — instead of
failing with the claimed insufficient-lead-time violation. -/
theorem lead_time_boundary_counterexample :
    5 * 1440 + 10 * 60 - 6361 = 1439 ∧
    canBookSlot stLeadTime "u1" "sA" 5 6361 =
      { canBook := true, reason := none } := by
  decide

/-- C5 amended: the lead-time check compares calendar days only, so for every
store, user and slot id, a booking attempt made exactly 23 h 59 min before a
slot start at date `d` (at least one day after the epoch) and hour `h` passes
the lead-time rule, exactly as one made 24 h 0 min before does: neither can
be reported as a lead-time violation. -/
theorem lead_time_calendar_day (st : GymState) (userId slotId : String)
    (d h : Nat) (hh : h < 24) (hd : 1 ≤ d) :
    (canBookSlot st userId slotId d (d * 1440 + h * 60 - 1439)).reason ≠
      some leadMsg ∧
    (canBookSlot st userId slotId d (d * 1440 + h * 60 - 1440)).reason ≠
      some leadMsg :=
  ⟨reason_ne_lead_of_leadOk (by unfold dayOf; omega),
   reason_ne_lead_of_leadOk (by unfold dayOf; omega)⟩

/-- Closed witness for the amended C5 at the concrete day-5 hour-10 slot. -/
theorem lead_time_calendar_day_witness :
    (canBookSlot stLeadTime "u1" "sA" 5 (5 * 1440 + 10 * 60 - 1439)).reason ≠
      some leadMsg ∧
    (canBookSlot stLeadTime "u1" "sA" 5 (5 * 1440 + 10 * 60 - 1440)).reason ≠
      some leadMsg :=
  lead_time_calendar_day stLeadTime "u1" "sA" 5 10 (by decide) (by decide)

/-- C6: the non-adjacency rule fires exactly when some already-booked slot of
the user on the target date has an hour differing from the requested slot's
hour by exactly 1 in either direction; whenever `canBookSlot` reports the
adjacent-session violation, the rule fired on the requested slot; and for
the concrete scenario with bookings at hours 9 and 11 on day 20, hour 10
triggers the rule while hours 13, 9 and 11 (a same-hour duplicate) do not. -/
theorem adjacency_rule :
    (∀ (st : GymState) (userId : String) (date : Nat) (req : BookingSlot),
      hasAdjacentBooking st userId date req = true ↔
        ∃ s ∈ getUserBookings st userId, s.date = date ∧
          ((s.hour : Int) - (req.hour : Int)).natAbs = 1) ∧
    (∀ (st : GymState) (userId slotId : String) (date now : Nat),
      (canBookSlot st userId slotId date now).reason = some adjMsg →
      ∃ s, st.slots.find? (fun sl => decide (sl.id = slotId)) = some s ∧
        hasAdjacentBooking st userId date s = true) ∧
    hasAdjacentBooking stNineEleven "u1" 20 (openSlot "t" 20 10) = true ∧
    hasAdjacentBooking stNineEleven "u1" 20 (openSlot "t" 20 13) = false ∧
    hasAdjacentBooking stNineEleven "u1" 20 (openSlot "t" 20 9) = false ∧
    hasAdjacentBooking stNineEleven "u1" 20 (openSlot "t" 20 11) = false := by
  refine ⟨?_, ?_, by decide, by decide, by decide, by decide⟩
  · intro st userId date req
    unfold hasAdjacentBooking slotsOnSameDay
    simp [List.any_eq_true, List.mem_filter, and_assoc]
  · intro st userId slotId date now h
    unfold canBookSlot at h
    by_cases hlead : date < dayOf now + 1
    · rw [if_pos hlead] at h
      simp [leadMsg, adjMsg] at h
    · rw [if_neg hlead] at h
      by_cases hdaily : 2 ≤ (slotsOnSameDay st userId date).length
      · rw [if_pos hdaily] at h
        simp [dailyMsg, adjMsg] at h
      · rw [if_neg hdaily] at h
        cases hfind : st.slots.find? (fun slot => decide (slot.id = slotId)) with
        | none =>
            rw [hfind] at h
            simp [invalidSlotMsg, adjMsg] at h
        | some s =>
            rw [hfind] at h
            by_cases hadj : hasAdjacentBooking st userId date s = true
            · exact ⟨s, rfl, hadj⟩
            · by_cases hweek : 3 ≤ weeklyCount st userId now
              · simp [hadj, hweek, weeklyMsg, adjMsg] at h
              · simp [hadj, hweek, adjMsg] at h

/-- Closed witness for C6: with a single booking at hour 9 on day 20, the
request for the adjacent hour-10 slot makes `canBookSlot` report the
adjacent-session violation, and the rule indeed fired on that slot. -/
theorem adjacency_rule_witness :
    ∃ s, stNineOnly.slots.find? (fun sl => decide (sl.id = "t10")) = some s ∧
      hasAdjacentBooking stNineOnly "u1" 20 s = true :=
  adjacency_rule.2.1 stNineOnly "u1" "t10" 20 (19 * 1440) (by decide)

/-- C7: when `bookSlot` fails, the whole state (slot store, booking ledger,
user histories and audit log) is returned unchanged; when it succeeds, the
requested slot loses one available spot and gains the user in its booker
set, one new booking is appended to the ledger and one booking-created audit
event is appended to the log. -/
theorem bookSlot_atomicity (st : GymState) (userId slotId : String)
    (now : Nat) :
    ((bookSlot st userId slotId now).1.success = false →
      (bookSlot st userId slotId now).2 = st) ∧
    ((bookSlot st userId slotId now).1.success = true →
      (bookSlot st userId slotId now).2.bookings =
        st.bookings ++ [{ id := "booking-" ++ toString now, userId := userId,
                          slotId := slotId, createdAt := now }] ∧
      (bookSlot st userId slotId now).2.auditLogs =
        st.auditLogs ++ [{ id := "log-" ++ toString (st.auditLogs.length + 1),
                           userId := userId,
                           action := AuditAction.booking_created,
                           details := "Booking created for slot " ++ slotId,
                           timestamp := now }] ∧
      ∃ s, st.slots.find? (fun sl => decide (sl.id = slotId)) = some s ∧
        0 < s.availableSpots ∧
        (bookSlot st userId slotId now).2.slots.find?
            (fun sl => decide (sl.id = slotId)) =
          some { s with availableSpots := s.availableSpots - 1,
                        bookedBy := s.bookedBy ++ [userId] }) := by
  cases hfind : st.slots.find? (fun sl => decide (sl.id = slotId)) with
  | none =>
      have heq : bookSlot st userId slotId now =
          ({ success := false, message := slotNotFoundMsg }, st) := by
        unfold bookSlot
        rw [hfind]
      simp [heq]
  | some slot =>
      by_cases hcap : slot.availableSpots ≤ 0
      · have heq : bookSlot st userId slotId now =
            ({ success := false, message := noSpotsMsg }, st) := by
          unfold bookSlot
          rw [hfind]
          simp only [if_pos hcap]
        simp [heq]
      · by_cases hcb : (canBookSlot st userId slotId slot.date now).canBook = false
        · have heq : bookSlot st userId slotId now =
              ({ success := false,
                 message := (canBookSlot st userId slotId
                   slot.date now).reason.getD "Cannot book this slot" }, st) := by
            unfold bookSlot
            rw [hfind]
            simp only [if_neg hcap, if_pos hcb]
          simp [heq]
        · have hslots : (bookSlot st userId slotId now).2.slots =
              updateFirst (fun s => decide (s.id = slotId))
                (fun s => { s with availableSpots := s.availableSpots - 1,
                                   bookedBy := s.bookedBy ++ [userId] })
                st.slots := by
            unfold bookSlot
            rw [hfind]
            simp only [if_neg hcap, if_neg hcb]
          have hrest : (bookSlot st userId slotId now).1.success = true ∧
              (bookSlot st userId slotId now).2.bookings =
                st.bookings ++ [{ id := "booking-" ++ toString now,
                                  userId := userId, slotId := slotId,
                                  createdAt := now }] ∧
              (bookSlot st userId slotId now).2.auditLogs =
                st.auditLogs ++
                  [{ id := "log-" ++ toString (st.auditLogs.length + 1),
                     userId := userId,
                     action := AuditAction.booking_created,
                     details := "Booking created for slot " ++ slotId,
                     timestamp := now }] := by
            unfold bookSlot
            rw [hfind]
            simp [if_neg hcap, if_neg hcb]
          have hp : ∀ y : BookingSlot,
              (fun s : BookingSlot => decide (s.id = slotId)) y = true →
              (fun s : BookingSlot => decide (s.id = slotId))
                ({ y with availableSpots := y.availableSpots - 1,
                          bookedBy := y.bookedBy ++ [userId] }) = true :=
            fun y hy => hy
          refine ⟨fun hfail => ?_, fun _ => ⟨hrest.2.1, hrest.2.2, slot,
            rfl, by omega, ?_⟩⟩
          · rw [hrest.1] at hfail
            exact absurd hfail (by simp)
          · rw [hslots]
            exact find?_updateFirst hp hfind

/-- Closed witness for C7: a failing call (unknown slot id) returns the state
unchanged, and a succeeding call appends exactly one booking to the ledger. -/
theorem bookSlot_atomicity_witness :
    (bookSlot stLeadTime "u1" "nope" 0).2 = stLeadTime ∧
    (bookSlot stRebook "u1" "s1" 12960).2.bookings =
      stRebook.bookings ++ [{ id := "booking-" ++ toString 12960,
                              userId := "u1", slotId := "s1",
                              createdAt := 12960 }] :=
  ⟨(bookSlot_atomicity stLeadTime "u1" "nope" 0).1 (by decide),
   ((bookSlot_atomicity stRebook "u1" "s1" 12960).2 (by decide)).1⟩

/-- C8 counterexample: `fullSlot` lies inside the queried range 0..10 but has
no available spots, and `getAvailableSlots` omits it, so the returned
sequence is not all the slots of the range. -/
theorem listSlots_omits_full_slot_counterexample :
    fullSlot ∈ stFull.slots ∧ 0 ≤ fullSlot.date ∧ fullSlot.date ≤ 10 ∧
    getAvailableSlots stFull.slots 0 10 = [] := by
  decide

/-- C8 amended: `getAvailableSlots` returns exactly the slots of the store
whose date lies within the inclusive range and which still have a spot
available (full slots in range are omitted); it preserves the store order as
a sublist, so its output is ascending in (date, hour) whenever the store is,
and the store produced by `generateMockSlots` is ascending in (date, hour). -/
theorem listSlots_characterization :
    (∀ (slots : List BookingSlot) (dateFrom dateTo : Nat) (s : BookingSlot),
      s ∈ getAvailableSlots slots dateFrom dateTo ↔
        s ∈ slots ∧ dateFrom ≤ s.date ∧ s.date ≤ dateTo ∧
          0 < s.availableSpots) ∧
    (∀ (slots : List BookingSlot) (dateFrom dateTo : Nat),
      List.Sublist (getAvailableSlots slots dateFrom dateTo) slots) ∧
    (∀ (slots : List BookingSlot) (dateFrom dateTo : Nat),
      slots.Pairwise slotOrd →
      (getAvailableSlots slots dateFrom dateTo).Pairwise slotOrd) ∧
    (∀ (today : Nat) (rand : Nat → Nat → Nat),
      (generateMockSlots today rand).Pairwise slotOrd) := by
  refine ⟨?_, ?_, ?_, ?_⟩
  · intro slots dateFrom dateTo s
    simp [getAvailableSlots, List.mem_filter, and_assoc]
  · intro slots dateFrom dateTo
    exact List.filter_sublist slots
  · intro slots dateFrom dateTo hsorted
    exact hsorted.sublist (List.filter_sublist slots)
  · intro today rand
    unfold generateMockSlots
    rw [List.pairwise_flatMap]
    constructor
    · intro day hday
      rw [List.pairwise_map]
      have hg : genHours.Pairwise (· < ·) := by decide
      exact hg.imp (fun hlt => Or.inr ⟨rfl, hlt⟩)
    · have hdays : (((List.range 30).map (· + 1)) : List Nat).Pairwise (· < ·) := by
        decide
      refine hdays.imp ?_
      intro a b hab x hx y hy
      simp only [List.mem_map] at hx hy
      obtain ⟨ha, -, rfl⟩ := hx
      obtain ⟨hb, -, rfl⟩ := hy
      exact Or.inl (show today + a < today + b by omega)

/-- Closed witness for the amended C8: on a small sorted store the filtered
output is again sorted. -/
theorem listSlots_characterization_witness :
    (getAvailableSlots sortedSlots 2 6).Pairwise slotOrd :=
  listSlots_characterization.2.2.1 sortedSlots 2 6 (by decide)

/-- C9 (against the spec-modelled `cancelBooking`): cancelling an unknown
booking id fails with not-found and changes nothing; a successful cancel
removes the booking from the ledger, removes the user from the slot's booker
set, decrements the occupancy (one spot becomes available again) and appends
a booking-cancelled audit event, all in one step; and — provided booking ids
are not duplicated — cancelling the same id a second time fails with
not-found and leaves the state from the first cancel untouched, so occupancy
is never decremented twice. -/
theorem cancelBooking_not_found {st : GymState} {bookingId : String}
    (now : Nat)
    (h : st.bookings.find? (fun b => decide (b.id = bookingId)) = none) :
    cancelBooking st bookingId now = (CancelOutcome.notFound, st) := by
  unfold cancelBooking
  rw [h]

theorem cancel_spec (st : GymState) (bookingId : String) (now now2 : Nat) :
    (st.bookings.find? (fun b => decide (b.id = bookingId)) = none →
      cancelBooking st bookingId now = (CancelOutcome.notFound, st)) ∧
    ((cancelBooking st bookingId now).1 = CancelOutcome.ok →
      ∃ b, st.bookings.find? (fun bk => decide (bk.id = bookingId)) = some b ∧
        (cancelBooking st bookingId now).2.bookings =
          st.bookings.eraseP (fun bk => decide (bk.id = bookingId)) ∧
        (cancelBooking st bookingId now).2.auditLogs =
          st.auditLogs ++
            [{ id := "log-" ++ toString (st.auditLogs.length + 1),
               userId := b.userId,
               action := AuditAction.booking_cancelled,
               details := "Booking cancelled for slot " ++ b.slotId,
               timestamp := now }] ∧
        ∃ s, st.slots.find? (fun sl => decide (sl.id = b.slotId)) = some s ∧
          b.userId ∈ s.bookedBy ∧
          (cancelBooking st bookingId now).2.slots.find?
              (fun sl => decide (sl.id = b.slotId)) =
            some { s with availableSpots := s.availableSpots + 1,
                          bookedBy := s.bookedBy.erase b.userId }) ∧
    (st.bookings.countP (fun bk => decide (bk.id = bookingId)) ≤ 1 →
      (cancelBooking st bookingId now).1 = CancelOutcome.ok →
      cancelBooking (cancelBooking st bookingId now).2 bookingId now2 =
        (CancelOutcome.notFound, (cancelBooking st bookingId now).2)) := by
  cases hfindb : st.bookings.find? (fun b => decide (b.id = bookingId)) with
  | none =>
      have heq := cancelBooking_not_found now hfindb
      simp [heq, hfindb]
  | some b =>
      cases hfinds : st.slots.find? (fun s => decide (s.id = b.slotId)) with
      | none =>
          have heq : cancelBooking st bookingId now =
              (CancelOutcome.slotMissing, st) := by
            unfold cancelBooking
            simp only [hfindb, hfinds]
          simp [heq, hfindb]
      | some s =>
          by_cases hmem : b.userId ∈ s.bookedBy
          · have heq : cancelBooking st bookingId now =
                (CancelOutcome.ok,
                 { slots := updateFirst (fun sl => decide (sl.id = b.slotId))
                     (fun sl => { sl with
                        availableSpots := sl.availableSpots + 1,
                        bookedBy := sl.bookedBy.erase b.userId }) st.slots
                   users := st.users
                   bookings := st.bookings.eraseP
                     (fun bk => decide (bk.id = bookingId))
                   auditLogs := st.auditLogs ++
                     [{ id := "log-" ++ toString (st.auditLogs.length + 1),
                        userId := b.userId,
                        action := AuditAction.booking_cancelled,
                        details := "Booking cancelled for slot " ++ b.slotId,
                        timestamp := now }] }) := by
              unfold cancelBooking
              simp only [hfindb, hfinds, if_pos hmem]
            have hp : ∀ y : BookingSlot,
                (fun sl : BookingSlot => decide (sl.id = b.slotId)) y = true →
                (fun sl : BookingSlot => decide (sl.id = b.slotId))
                  ({ y with availableSpots := y.availableSpots + 1,
                            bookedBy := y.bookedBy.erase b.userId }) = true :=
              fun y hy => hy
            refine ⟨fun hcontra => absurd hcontra (by simp),
              fun _ => ⟨b, rfl, by simp [heq],
              by simp [heq], s, hfinds, hmem, ?_⟩, fun hcount _ => ?_⟩
            · rw [heq]
              exact find?_updateFirst hp hfinds
            · have hnone : ((cancelBooking st bookingId now).2.bookings).find?
                  (fun bk => decide (bk.id = bookingId)) = none := by
                rw [heq]
                exact find?_eraseP_of_countP_le_one hcount
              exact cancelBooking_not_found now2 hnone
          · have heq : cancelBooking st bookingId now =
                (CancelOutcome.notBooked, st) := by
              unfold cancelBooking
              simp only [hfindb, hfinds, if_neg hmem]
            simp [heq, hfindb]

/-- Closed witness for C9: in `stRebook` the first cancel of booking `b1`
succeeds and the second fails with not-found on the unchanged state; an
unknown id fails with not-found immediately. -/
theorem cancel_spec_witness :
    cancelBooking stRebook "zzz" 5 = (CancelOutcome.notFound, stRebook) ∧
    cancelBooking (cancelBooking stRebook "b1" 100).2 "b1" 200 =
      (CancelOutcome.notFound, (cancelBooking stRebook "b1" 100).2) :=
  ⟨(cancel_spec stRebook "zzz" 5 0).1 (by decide),
   (cancel_spec stRebook "b1" 100 200).2.2 (by decide) (by decide)⟩

/-- C10: for a user id matching no user in the store, `getUserBookings` is
empty, so the daily, adjacency and weekly rules always pass; `bookSlot` on an
existing available slot whose date passes the lead-time rule nevertheless
succeeds, decrements the slot's availableSpots (adding the id to its booker
set), appends the booking and the audit event, but leaves the user store
unchanged (no booking history records the id), so later eligibility lookups
for that user id still see an empty booking list. -/
theorem unknown_user_booking (st : GymState) (userId slotId : String)
    (now : Nat) (habs : ∀ u ∈ st.users, ¬ u.id = userId) :
    getUserBookings st userId = [] ∧
    (∀ s, st.slots.find? (fun sl => decide (sl.id = slotId)) = some s →
      0 < s.availableSpots → dayOf now + 1 ≤ s.date →
      (bookSlot st userId slotId now).1.success = true ∧
      (bookSlot st userId slotId now).2.slots.find?
          (fun sl => decide (sl.id = slotId)) =
        some { s with availableSpots := s.availableSpots - 1,
                      bookedBy := s.bookedBy ++ [userId] } ∧
      (bookSlot st userId slotId now).2.users = st.users ∧
      (bookSlot st userId slotId now).2.bookings =
        st.bookings ++ [{ id := "booking-" ++ toString now, userId := userId,
                          slotId := slotId, createdAt := now }] ∧
      (bookSlot st userId slotId now).2.auditLogs =
        st.auditLogs ++ [{ id := "log-" ++ toString (st.auditLogs.length + 1),
                           userId := userId,
                           action := AuditAction.booking_created,
                           details := "Booking created for slot " ++ slotId,
                           timestamp := now }] ∧
      getUserBookings (bookSlot st userId slotId now).2 userId = []) := by
  have hfindu : st.users.find? (fun u => decide (u.id = userId)) = none :=
    List.find?_eq_none.mpr (fun u hu => by simpa using habs u hu)
  have h0 : getUserBookings st userId = [] :=
    getUserBookings_of_user_absent hfindu
  have hday : ∀ d : Nat, slotsOnSameDay st userId d = [] := by
    intro d
    unfold slotsOnSameDay
    rw [h0]
    rfl
  have hweek0 : weeklyCount st userId now = 0 := by
    unfold weeklyCount
    rw [h0]
    rfl
  refine ⟨h0, fun s hfind hcap hlead => ?_⟩
  have hcb : canBookSlot st userId slotId s.date now =
      { canBook := true, reason := none } := by
    unfold canBookSlot
    have hl : ¬ s.date < dayOf now + 1 := by omega
    have hd : ¬ 2 ≤ (slotsOnSameDay st userId s.date).length := by
      rw [hday s.date]
      decide
    have hadj : ¬ hasAdjacentBooking st userId s.date s = true := by
      unfold hasAdjacentBooking
      rw [hday s.date]
      simp
    have hw : ¬ 3 ≤ weeklyCount st userId now := by
      rw [hweek0]
      decide
    simp only [if_neg hl, if_neg hd, hfind, if_neg hadj, if_neg hw]
  have hcap' : ¬ s.availableSpots ≤ 0 := by omega
  have hcb' : ¬ (canBookSlot st userId slotId s.date now).canBook = false := by
    rw [hcb]
    decide
  have husers : (bookSlot st userId slotId now).2.users = st.users := by
    unfold bookSlot
    rw [hfind]
    simp only [if_neg hcap', if_neg hcb']
    exact updateFirst_of_forall_not (fun u hu => by simpa using habs u hu)
  have hp : ∀ y : BookingSlot,
      (fun sl : BookingSlot => decide (sl.id = slotId)) y = true →
      (fun sl : BookingSlot => decide (sl.id = slotId))
        ({ y with availableSpots := y.availableSpots - 1,
                  bookedBy := y.bookedBy ++ [userId] }) = true :=
    fun y hy => hy
  refine ⟨?_, ?_, husers, ?_, ?_, ?_⟩
  · unfold bookSlot
    rw [hfind]
    simp only [if_neg hcap', if_neg hcb']
  · unfold bookSlot
    rw [hfind]
    simp only [if_neg hcap', if_neg hcb']
    exact find?_updateFirst hp hfind
  · unfold bookSlot
    rw [hfind]
    simp only [if_neg hcap', if_neg hcb']
  · unfold bookSlot
    rw [hfind]
    simp only [if_neg hcap', if_neg hcb']
  · apply getUserBookings_of_user_absent
    rw [husers]
    exact hfindu

/-- Closed witness for C10 at `stLeadTime`, whose user store is empty: the
booking succeeds, the slot goes from 5 to 4 available spots with `u1` in its
booker set, the (empty) user store is unchanged and the later lookup still
sees no bookings. -/
theorem unknown_user_booking_witness :
    getUserBookings stLeadTime "u1" = [] ∧
    (bookSlot stLeadTime "u1" "sA" 6361).1.success = true ∧
    (bookSlot stLeadTime "u1" "sA" 6361).2.slots.find?
        (fun sl => decide (sl.id = "sA")) =
      some { id := "sA", date := 5, hour := 10, availableSpots := 4,
             totalSpots := 50, bookedBy := ["u1"] } ∧
    (bookSlot stLeadTime "u1" "sA" 6361).2.users = stLeadTime.users ∧
    getUserBookings (bookSlot stLeadTime "u1" "sA" 6361).2 "u1" = [] := by
  have h := unknown_user_booking stLeadTime "u1" "sA" 6361 (by decide)
  have h2 := h.2 (openSlot "sA" 5 10) (by decide) (by decide) (by decide)
  exact ⟨h.1, h2.1, h2.2.1, h2.2.2.1, h2.2.2.2.2.2⟩

end Gym
